import Mathlib

/-!
Verification of the access-resolution engine in `drive/api/permissions.py`.

The Python module is shallowly embedded: each whitelisted function becomes a
Lean function over an explicit `State` that stands for the database tables
(`Drive Entity`, `Drive DocShare`, `User Group Member`, `Drive Favourite`)
and the external collaborators (the frappe permission framework, the
nested-set ancestor lookup, document contents).  SQL lookups become list
filters; `frappe.db.get_value` (first matching row) becomes `List.head?` of
the filtered rows; a SQL `GROUP BY k` that selects unaggregated columns
becomes `dedupByKey` (keep the first row of each group), the deterministic
stand-in for the arbitrary representative row MariaDB returns; an `ORDER BY`
is abstracted as a caller-supplied reordering of the result list.
-/

set_option maxRecDepth 4096

/-- Row of the `Drive Entity` table, restricted to the columns the module
reads (display-only columns such as color or timestamps other than
`modified` are omitted). -/
structure Entity where
  name : String
  title : String
  is_group : Bool
  owner : String
  parent_drive_entity : Option String
  is_active : Bool
  modified : Nat
  file_size : Nat
  mime_type : String
  document : Option String
deriving DecidableEq, Repr

/-- Row of the `Drive DocShare` table (a share grant). -/
structure DocShare where
  name : String
  share_doctype : String
  share_name : String
  user_doctype : String
  user_name : String
  read : Bool
  write : Bool
  share : Bool
  everyone : Bool
  public : Bool
deriving DecidableEq, Repr

/-- Row of the `User Group Member` table: `parent` is the group name,
`user` the member, `name` the unique row id. -/
structure GroupMember where
  name : String
  parent : String
  user : String
deriving DecidableEq, Repr

/-- The access dict built by `get_user_access`.  The Python code returns a
plain dict; `share` is an `Option` because the code may or may not put a
`share` key into the dict it returns (it selects only `read` and `write`,
so the key is in fact never present — see `user_access_no_share_flag`). -/
structure AccessDict where
  read : Bool
  write : Bool
  share : Option Bool
deriving DecidableEq, Repr

/-- Database and collaborator state consumed by the module.
`hasPermission e p u` models `frappe.has_permission(doctype="Drive Entity",
doc=e, ptype=p, user=u)`, the framework permission check, which is
independent of the `Drive DocShare` rows; `ancestors` models
`get_ancestors_of` (proper ancestors, root first); `docContents` models
`get_doc_content`. -/
structure State where
  entities : List Entity
  docshares : List DocShare
  members : List GroupMember
  favourites : List (String × String)
  ancestors : String → List String
  hasPermission : String → String → String → Bool
  docContents : String → String

/-- Keep the first element of each key-group, dropping later elements whose
key was already seen: the deterministic model of a MariaDB `GROUP BY` that
selects unaggregated columns. -/
def dedupByKey (key : α → String) : List String → List α → List α
  | _, [] => []
  | seen, x :: xs =>
    if seen.contains (key x) then dedupByKey key seen xs
    else x :: dedupByKey key (key x :: seen) xs

/-- The direct user grant lookup of `get_user_access` (lines 357-367):
`frappe.db.get_value` on `Drive DocShare` filtered by share doctype, entity
name, user doctype `User` and the session user; first matching row. -/
def findDirectShare (st : State) (user ename : String) : Option DocShare :=
  (st.docshares.filter (fun ds =>
    ds.share_doctype == "Drive Entity" && ds.share_name == ename &&
    ds.user_doctype == "User" && ds.user_name == user)).head?

/-- The everyone grant lookup of `get_user_access` (lines 373-378). -/
def findEveryoneShare (st : State) (ename : String) : Option DocShare :=
  (st.docshares.filter (fun ds => ds.share_name == ename && ds.everyone)).head?

/-- The public grant lookup of `get_user_access` (lines 381-397). -/
def findPublicShare (st : State) (ename : String) : Option DocShare :=
  (st.docshares.filter (fun ds => ds.share_name == ename && ds.public)).head?

/-- The join rows of `user_group_entity_access` (lines 422-432): DocShare
joined with User Group Member on `member.parent == docshare.user_name`,
restricted to the entity and the session user. -/
def ugaRows (st : State) (user ename : String) : List (DocShare × GroupMember) :=
  (st.docshares.product st.members).filter
    (fun p => p.2.parent == p.1.user_name && p.1.share_name == ename && p.2.user == user)

/-- The grouped rows of `user_group_entity_access`: GROUP BY the
member-row name, keeping the representative row the database returns. -/
def ugaGrouped (st : State) (user ename : String) : List (DocShare × GroupMember) :=
  dedupByKey (fun p => p.2.name) [] (ugaRows st user ename)

/-- Embedding of `user_group_entity_access` (lines 401-438): run the join,
group by the member-row name, return `none` when no row matched (Python
`False`), otherwise the maximum of `read` and of `write` over the grouped
rows (Python `max` over 0/1 values, i.e. boolean or).  No `share` key is
selected. -/
def user_group_entity_access (st : State) (user ename : String) : Option AccessDict :=
  if (ugaGrouped st user ename).isEmpty then none
  else some ⟨(ugaGrouped st user ename).any (fun p => p.1.read),
             (ugaGrouped st user ename).any (fun p => p.1.write), none⟩

/-- Embedding of `get_user_access` (lines 346-398).  Note there is no
ownership check anywhere in this function, and every branch builds a dict
holding only `read` and `write` (share is never selected). -/
def get_user_access (st : State) (user ename : String) : AccessDict :=
  if user != "Guest" then
    match findDirectShare st user ename with
    | some ds => ⟨ds.read, ds.write, none⟩
    | none =>
      match user_group_entity_access st user ename with
      | some g => g
      | none =>
        match findEveryoneShare st ename with
        | some ds => ⟨ds.read, ds.write, none⟩
        | none =>
          match findPublicShare st ename with
          | some ds => ⟨ds.read, ds.write, none⟩
          | none => ⟨false, false, none⟩
  else
    match findPublicShare st ename with
    | some ds => ⟨ds.read, ds.write, none⟩
    | none => ⟨false, false, none⟩

/-- Embedding of `get_general_access` (lines 316-343): all DocShare rows on
the entity with `everyone` or `public` set, grouped by row name. -/
def get_general_access (st : State) (ename : String) : List DocShare :=
  dedupByKey (fun ds => ds.name) []
    (st.docshares.filter (fun ds => ds.share_name == ename && (ds.everyone || ds.public)))

/-- The failures `get_entity_with_permissions` can raise: the gate
permission error ("Not permitted"), a missing entity (from `get_entity`),
the inactive-ancestor error ("Parent Folder has been deleted") and the
inactive-entity error ("Specified file has been trashed by the owner"). -/
inductive DriveError where
  | NotPermitted
  | NotFound
  | ParentDeleted
  | Trashed
deriving DecidableEq, Repr

/-- The successful return value of `get_entity_with_permissions`: the
entity dict, merged with the `get_user_access` dict for non-owners
(`user_access = none` on the owner path, where no access dict is merged)
and with the document content when the entity has an attached document. -/
structure Response where
  entity : Entity
  user_access : Option AccessDict
  doc : Option String
deriving DecidableEq, Repr

deriving instance DecidableEq for Except

/-- Modelled from the spec: `GetEntity(id) -> Entity | NotFound`, the
entity lookup `get_entity` imported from `drive.api.files` (not part of
this module): the first entity row with the given name. -/
def lookupEntity (st : State) (ename : String) : Option Entity :=
  st.entities.find? (fun e => e.name == ename)

/-- The inactive-ancestor scan of `get_entity_with_permissions` (lines
285-291): true when some ancestor name has an entity row with
`is_active == 0` (`frappe.db.exists`). -/
def hasDeletedAncestor (st : State) (ename : String) : Bool :=
  (st.ancestors ename).any (fun a =>
    st.entities.any (fun e => e.name == a && !e.is_active))

/-- Embedding of `get_entity_with_permissions` (lines 252-313).  The
second component records whether the `mark_as_viewed` side effect was
performed.  Control flow mirrors the source exactly: permission gate
(checking framework `read` permission when no general access exists),
entity fetch, ancestor scan, `mark_as_viewed` for non-Guest callers on
non-folders, trashed check, then the owner short-circuit. -/
def get_entity_with_permissions (st : State) (user ename : String) :
    Except DriveError Response × Bool :=
  if (get_general_access st ename).isEmpty && !(st.hasPermission ename "read" user) then
    (Except.error DriveError.NotPermitted, false)
  else
    match lookupEntity st ename with
    | none => (Except.error DriveError.NotFound, false)
    | some entity =>
      if hasDeletedAncestor st ename then (Except.error DriveError.ParentDeleted, false)
      else
        let viewed := user != "Guest" && !entity.is_group
        if !entity.is_active then (Except.error DriveError.Trashed, viewed)
        else if entity.owner == user then
          (Except.ok ⟨entity, none, entity.document.map st.docContents⟩, viewed)
        else
          (Except.ok ⟨entity, some (get_user_access st user ename),
            entity.document.map st.docContents⟩, viewed)

/-- Result row of the two sharing list queries, restricted to the columns
the module logic touches (user display columns are omitted). -/
structure SharedRow where
  name : String
  title : String
  is_group : Bool
  owner : String
  modified : Nat
  parent_drive_entity : Option String
  read : Bool
  write : Bool
  everyone : Bool
  share : Bool
  is_favourite : Option String
deriving DecidableEq, Repr

/-- The favourite left join used by both list queries: the favourite
entity name when the caller favourited the entity, else NULL. -/
def favouriteOf (st : State) (user ename : String) : Option String :=
  (st.favourites.find? (fun f => f.1 == ename && f.2 == user)).map (fun f => f.1)

/-- Join rows of the `get_shared_with_me` query (lines 182-202): entities
inner-joined with DocShare on the entity name, left-joined with User Group
Member on `member.parent == docshare.user_name` (a row with `none` when no
member matches the grant). -/
def swmJoin (st : State) : List (Entity × DocShare × Option GroupMember) :=
  st.entities.flatMap (fun e =>
    (st.docshares.filter (fun ds => ds.share_name == e.name)).flatMap (fun ds =>
      let ms := st.members.filter (fun m => m.parent == ds.user_name)
      if ms.isEmpty then [(e, ds, none)] else ms.map (fun m => (e, ds, some m))))

/-- WHERE clause of `get_shared_with_me` (lines 195-201): active entities
where the joined member is the session user, or the grant targets the
session user directly, or the grant is an everyone grant.  A NULL joined
member fails the first disjunct, as in SQL. -/
def swmWhere (user : String) (r : Entity × DocShare × Option GroupMember) : Bool :=
  r.1.is_active &&
    ((match r.2.2 with | some m => m.user == user | none => false) ||
     (r.2.1.user_name == user || r.2.1.everyone))

/-- The grouped result of the `get_shared_with_me` query: one row per
entity (GROUP BY entity name, representative fields from the first row of
the group), with `write` aggregated as `fn.Max` over the group. -/
def get_shared_with_me_all (st : State) (user : String) : List SharedRow :=
  let rows := (swmJoin st).filter (swmWhere user)
  (dedupByKey (fun r => r.1.name) [] rows).map (fun r =>
    { name := r.1.name, title := r.1.title, is_group := r.1.is_group,
      owner := r.1.owner, modified := r.1.modified,
      parent_drive_entity := r.1.parent_drive_entity,
      read := r.2.1.read,
      write := (rows.filter (fun r2 => r2.1.name == r.1.name)).any (fun r2 => r2.2.1.write),
      everyone := r.2.1.everyone, share := r.2.1.share,
      is_favourite := favouriteOf st user r.1.name })

/-- The highest-level post-filter shared by both list queries (lines
138-143 and 210-215): `names` is taken from the whole result list, and a
row is kept when its parent is not among those names and it passes the
extra condition (`owner != session user` for shared-with-me, trivially
true for shared-by-me). -/
def highestLevelFilter (extra : SharedRow → Bool) (result : List SharedRow) :
    List SharedRow :=
  let names := result.map (fun x => x.name)
  result.filter (fun x =>
    (match x.parent_drive_entity with
     | some p => !(names.contains p)
     | none => true) && extra x)

/-- Embedding of `get_shared_with_me` (lines 146-215).  `order` stands for
the ORDER BY the database applies in the sorted mode; the `get_all` mode
returns the grouped query result unordered and unfiltered. -/
def get_shared_with_me (st : State) (user : String) (get_all : Bool)
    (order : List SharedRow → List SharedRow) : List SharedRow :=
  let q := get_shared_with_me_all st user
  if get_all then q
  else highestLevelFilter (fun x => x.owner != user) (order q)

/-- Join rows of the `get_shared_by_me` query (lines 106-130): entities
left-joined with DocShare on entity name and entity owner equal to the
session user. -/
def sbmJoin (st : State) (user : String) : List (Entity × Option DocShare) :=
  st.entities.flatMap (fun e =>
    let dss := st.docshares.filter (fun ds => ds.share_name == e.name && e.owner == user)
    if dss.isEmpty then [(e, none)] else dss.map (fun ds => (e, some ds)))

/-- WHERE clause of `get_shared_by_me` (lines 121-128): active entities
whose joined grant targets someone other than the session user, or is an
everyone or public grant.  A NULL joined grant fails all disjuncts, as in
SQL. -/
def sbmWhere (user : String) (r : Entity × Option DocShare) : Bool :=
  r.1.is_active &&
    (match r.2 with
     | some ds => ds.user_name != user || ds.everyone || ds.public
     | none => false)

/-- The grouped result of the `get_shared_by_me` query: one row per entity,
representative fields from the first row of each group (no aggregate). -/
def get_shared_by_me_all (st : State) (user : String) : List SharedRow :=
  let rows := (sbmJoin st user).filter (sbmWhere user)
  (dedupByKey (fun r => r.1.name) [] rows).map (fun r =>
    { name := r.1.name, title := r.1.title, is_group := r.1.is_group,
      owner := r.1.owner, modified := r.1.modified,
      parent_drive_entity := r.1.parent_drive_entity,
      read := (match r.2 with | some ds => ds.read | none => false),
      write := (match r.2 with | some ds => ds.write | none => false),
      everyone := (match r.2 with | some ds => ds.everyone | none => false),
      share := (match r.2 with | some ds => ds.share | none => false),
      is_favourite := favouriteOf st user r.1.name })

/-- Embedding of `get_shared_by_me` (lines 68-143), with the same `order`
abstraction as `get_shared_with_me`; its post-filter keeps only rows whose
parent is absent from the result names, with no owner condition. -/
def get_shared_by_me (st : State) (user : String) (get_all : Bool)
    (order : List SharedRow → List SharedRow) : List SharedRow :=
  let q := get_shared_by_me_all st user
  if get_all then q
  else highestLevelFilter (fun _ => true) (order q)

/-- Modelled from the spec words of the Grant Aggregator contract, for
comparison with `user_group_entity_access`: the Share Grants on the entity
whose principal-type is group and whose group identifier is one of the
membership groups of the user.  Note the code itself never checks the
principal type: its join matches any grant whose `user_name` equals a
group name, so the two agree only when no non-group grant collides with a
group name (the hypothesis of `group_access_or_amended`). -/
def matchingGroupGrants (st : State) (user ename : String) : List DocShare :=
  st.docshares.filter (fun ds => ds.user_doctype == "User Group" &&
    ds.share_name == ename &&
    st.members.any (fun m => m.user == user && m.parent == ds.user_name))

/-! Concrete states used by counterexamples and witnesses. -/

/-- Entity `e1` owned by alice with a conflicting all-false direct grant
row for alice herself. -/
def stC1 : State :=
  ⟨[⟨"e1", "f1", false, "alice", none, true, 0, 0, "", none⟩],
   [⟨"d1", "Drive Entity", "e1", "User", "alice", false, false, true, false, false⟩],
   [], [], fun _ => [], fun _ _ _ => false, fun _ => ""⟩

/-- Entity `e1` owned by alice with an all-false direct grant row for
alice; the framework permission check lets the gate pass. -/
def stC1W : State :=
  ⟨[⟨"e1", "f1", false, "alice", none, true, 0, 0, "", none⟩],
   [⟨"d1", "Drive Entity", "e1", "User", "alice", false, false, false, false, false⟩],
   [], [], fun _ => [], fun _ _ _ => true, fun _ => ""⟩

/-- The C2 scenario: entity `f` owned by a, shared with b directly as
read-only, and shared with group g (b is a member) as read-write. -/
def stC2 : State :=
  ⟨[⟨"f", "doc", false, "a", none, true, 0, 0, "", none⟩],
   [⟨"d1", "Drive Entity", "f", "User", "b", true, false, false, false, false⟩,
    ⟨"d2", "Drive Entity", "f", "User Group", "g", true, true, false, false, false⟩],
   [⟨"m1", "g", "b"⟩], [], fun _ => [], fun _ _ _ => false, fun _ => ""⟩

/-- Entity `e1` with no everyone or public grant; carol has a read-only
direct grant, and the framework grants carol read but not write. -/
def stC3 : State :=
  ⟨[⟨"e1", "f1", false, "bob", none, true, 0, 0, "", none⟩],
   [⟨"d1", "Drive Entity", "e1", "User", "carol", true, false, false, false, false⟩],
   [], [], fun _ => [], fun _ pt _ => pt == "read", fun _ => ""⟩

/-- State with no grants at all and a framework that denies everything. -/
def stC3W : State :=
  ⟨[⟨"e1", "f1", false, "bob", none, true, 0, 0, "", none⟩],
   [], [], [], fun _ => [], fun _ _ _ => false, fun _ => ""⟩

/-- Folder chain root → mid (inactive) → leaf (active); dave holds a full
direct grant on leaf, but no everyone or public grant exists and the
framework denies dave. -/
def stC4 : State :=
  ⟨[⟨"root", "root", true, "bob", none, true, 0, 0, "", none⟩,
    ⟨"mid", "mid", true, "bob", some "root", false, 0, 0, "", none⟩,
    ⟨"leaf", "leaf", false, "bob", some "mid", true, 0, 0, "", none⟩],
   [⟨"d1", "Drive Entity", "leaf", "User", "dave", true, true, true, false, false⟩],
   [], [],
   fun n => if n == "leaf" then ["root", "mid"] else if n == "mid" then ["root"] else [],
   fun _ _ _ => false, fun _ => ""⟩

/-- Same folder chain, with a framework that lets the gate pass. -/
def stC4W : State :=
  ⟨[⟨"root", "root", true, "bob", none, true, 0, 0, "", none⟩,
    ⟨"mid", "mid", true, "bob", some "root", false, 0, 0, "", none⟩,
    ⟨"leaf", "leaf", false, "bob", some "mid", true, 0, 0, "", none⟩],
   [⟨"d1", "Drive Entity", "leaf", "User", "dave", true, true, true, false, false⟩],
   [], [],
   fun n => if n == "leaf" then ["root", "mid"] else if n == "mid" then ["root"] else [],
   fun _ _ _ => true, fun _ => ""⟩

/-- User u belongs to group g; two grant rows for the same group g on
entity e carry complementary flags. -/
def stC6 : State :=
  ⟨[], [⟨"d1", "Drive Entity", "e", "User Group", "g", false, true, false, false, false⟩,
        ⟨"d2", "Drive Entity", "e", "User Group", "g", true, false, false, false, false⟩],
   [⟨"m1", "g", "u"⟩], [], fun _ => [], fun _ _ _ => false, fun _ => ""⟩

/-- The same state as `stC6` with the two grant rows swapped. -/
def stC6p : State :=
  ⟨[], [⟨"d2", "Drive Entity", "e", "User Group", "g", true, false, false, false, false⟩,
        ⟨"d1", "Drive Entity", "e", "User Group", "g", false, true, false, false, false⟩],
   [⟨"m1", "g", "u"⟩], [], fun _ => [], fun _ _ _ => false, fun _ => ""⟩

/-- User u belongs to groups g and h, each holding one grant row on e:
g grants read only, h grants write only. -/
def stC6W : State :=
  ⟨[], [⟨"d1", "Drive Entity", "e", "User Group", "g", true, false, false, false, false⟩,
        ⟨"d2", "Drive Entity", "e", "User Group", "h", false, true, false, false, false⟩],
   [⟨"m1", "g", "u"⟩, ⟨"m2", "h", "u"⟩], [], fun _ => [], fun _ _ _ => false, fun _ => ""⟩

/-- Inactive non-folder entity `f1` with an everyone grant, so the gate
passes for the authenticated caller erin. -/
def stC7 : State :=
  ⟨[⟨"f1", "t", false, "bob", none, false, 0, 0, "", none⟩],
   [⟨"d1", "Drive Entity", "f1", "User", "x", true, true, false, true, false⟩],
   [], [], fun _ => [], fun _ _ _ => false, fun _ => ""⟩

/-- Active entity `g1` owned by pat, shared with everyone. -/
def stC8 : State :=
  ⟨[⟨"g1", "t", false, "pat", none, true, 0, 0, "", none⟩],
   [⟨"d1", "Drive Entity", "g1", "User", "x", true, true, false, true, false⟩],
   [], [], fun _ => [], fun _ _ _ => false, fun _ => ""⟩

/-! Helper lemmas. -/

lemma gate_cond_false {st : State} {user ename : String}
    (hgate : ¬((get_general_access st ename).isEmpty = true
               ∧ st.hasPermission ename "read" user = false)) :
    ((get_general_access st ename).isEmpty && !(st.hasPermission ename "read" user)) = false := by
  cases h1 : (get_general_access st ename).isEmpty <;>
    cases h2 : st.hasPermission ename "read" user <;> simp_all

/-! Claim C10. -/

/-- C10: every dict built by `get_user_access` carries only a read and a
write flag; no code path of the resolver puts a share flag into the
returned decision. -/
theorem user_access_no_share_flag (st : State) (user ename : String) :
    (get_user_access st user ename).share = none := by
  unfold get_user_access
  split
  · cases hd : findDirectShare st user ename with
    | some ds => simp [hd]
    | none =>
      cases hg : user_group_entity_access st user ename with
      | some g =>
        simp only [hd, hg]
        unfold user_group_entity_access at hg
        split at hg
        · exact Option.noConfusion hg
        · cases hg; rfl
      | none =>
        cases he : findEveryoneShare st ename with
        | some ds => simp [hd, hg, he]
        | none =>
          cases hp : findPublicShare st ename with
          | some ds => simp [hd, hg, he, hp]
          | none => simp [hd, hg, he, hp]
  · cases hp : findPublicShare st ename with
    | some ds => simp [hp]
    | none => simp [hp]

/-! Claim C5. -/

/-- C5: resolving access for the anonymous principal Guest consults only
the public grant lookup: the result carries the read and write flags of the first public grant
row when one exists and is all-false otherwise, and its
share entry is absent (so it never behaves as granted). -/
theorem anonymous_public_only (st : State) (ename : String) :
    (match findPublicShare st ename with
     | some g => (get_user_access st "Guest" ename).read = g.read
                 ∧ (get_user_access st "Guest" ename).write = g.write
     | none => (get_user_access st "Guest" ename).read = false
               ∧ (get_user_access st "Guest" ename).write = false)
    ∧ (get_user_access st "Guest" ename).share.getD false = false := by
  unfold get_user_access
  cases hp : findPublicShare st ename with
  | some g => simp [hp]
  | none => simp [hp]

/-! Claim C2. -/

/-- C2: a direct user grant row short-circuits resolution for an
authenticated caller: whenever a direct row exists, `get_user_access`
returns exactly the read and write flags of that row, whatever the group,
everyone and public grant rows of the state say. -/
theorem direct_grant_shortcircuit (st : State) (user ename : String) (ds : DocShare)
    (hu : user ≠ "Guest") (hd : findDirectShare st user ename = some ds) :
    get_user_access st user ename = ⟨ds.read, ds.write, none⟩ := by
  have hb : (user != "Guest") = true := by simpa [bne_iff_ne] using hu
  simp [get_user_access, hb, hd]

/-- Witness for C2, on the spec scenario: b holds a read-only direct grant
on f while group g (b is a member) holds a read-write grant; the resolved
decision is the read-only of the direct row, the group write does not leak. -/
theorem direct_grant_shortcircuit_witness :
    findDirectShare stC2 "b" "f" =
      some ⟨"d1", "Drive Entity", "f", "User", "b", true, false, false, false, false⟩
    ∧ user_group_entity_access stC2 "b" "f" = some ⟨true, true, none⟩
    ∧ get_user_access stC2 "b" "f" = ⟨true, false, none⟩ :=
  ⟨by decide, by decide,
   direct_grant_shortcircuit stC2 "b" "f"
     ⟨"d1", "Drive Entity", "f", "User", "b", true, false, false, false, false⟩
     (by decide) (by decide)⟩

/-! Claim C1. -/

/-- C1 counterexample: alice owns e1, yet `get_user_access` for alice on
e1 returns the all-false flags of the conflicting direct row, not the full
decision the claim promises: the function has no ownership check. -/
theorem owner_access_counterexample :
    (lookupEntity stC1 "e1").map Entity.owner = some "alice"
    ∧ get_user_access stC1 "alice" "e1" = ⟨false, false, none⟩
    ∧ (⟨false, false, none⟩ : AccessDict) ≠ ⟨true, true, some true⟩ := by decide

/-- C1 amended: the ownership short-circuit lives in
`get_entity_with_permissions`, not in `get_user_access`: when the caller
owns the entity (and the gate, ancestor and trashed checks pass) the
response is the bare entity with no grant-derived access dict merged in,
whatever grant rows exist. -/
theorem owner_shortcircuit_amended (st : State) (user ename : String) (ent : Entity)
    (hgate : ¬((get_general_access st ename).isEmpty = true
               ∧ st.hasPermission ename "read" user = false))
    (hent : lookupEntity st ename = some ent)
    (hanc : hasDeletedAncestor st ename = false)
    (hact : ent.is_active = true)
    (hown : ent.owner = user) :
    (get_entity_with_permissions st user ename).1 =
      Except.ok ⟨ent, none, ent.document.map st.docContents⟩ := by
  unfold get_entity_with_permissions
  rw [gate_cond_false hgate, hent]
  simp [hanc, hact, hown]

/-- Witness for C1 amended: alice owns e1 and holds a conflicting
all-false direct grant row; the returned response is the entity with no
access dict. -/
theorem owner_shortcircuit_amended_witness :
    (get_entity_with_permissions stC1W "alice" "e1").1 =
      Except.ok ⟨⟨"e1", "f1", false, "alice", none, true, 0, 0, "", none⟩, none, none⟩ :=
  owner_shortcircuit_amended stC1W "alice" "e1"
    ⟨"e1", "f1", false, "alice", none, true, 0, 0, "", none⟩
    (by decide) (by decide) (by decide) (by decide) (by decide)

/-! Claim C3. -/

/-- C3 counterexample: with no everyone or public grant on e1, carol holds
only read permission (her direct grant and the framework both deny write),
yet the gate lets the call through and returns the entity: the gate checks
read, not write. -/
theorem gate_checks_write_counterexample :
    (get_general_access stC3 "e1").isEmpty = true
    ∧ (get_user_access stC3 "carol" "e1").write = false
    ∧ stC3.hasPermission "e1" "write" "carol" = false
    ∧ (get_entity_with_permissions stC3 "carol" "e1").1 =
        Except.ok ⟨⟨"e1", "f1", false, "bob", none, true, 0, 0, "", none⟩,
          some ⟨true, false, none⟩, none⟩ := by decide

/-- C3 amended: when no everyone or public grant exists on the entity, the
gate requires the framework read permission (ptype read, not write) and
raises the permission failure exactly when that read check denies. -/
theorem gate_checks_read_amended (st : State) (user ename : String)
    (hge : (get_general_access st ename).isEmpty = true)
    (hperm : st.hasPermission ename "read" user = false) :
    (get_entity_with_permissions st user ename).1 = Except.error DriveError.NotPermitted := by
  simp [get_entity_with_permissions, hge, hperm]

/-- Witness for C3 amended: with no grants at all and a denying framework,
the gate raises the permission failure. -/
theorem gate_checks_read_amended_witness :
    (get_entity_with_permissions stC3W "zed" "e1").1 = Except.error DriveError.NotPermitted :=
  gate_checks_read_amended stC3W "zed" "e1" (by decide) (by decide)

/-! Claim C4. -/

/-- C4 counterexample: leaf sits under the inactive folder mid and dave
holds a full direct grant on it, yet the call raises the permission
failure, not the ancestor-deleted failure: the gate permission check runs
before the ancestor scan, so a principal the framework denies (with no
everyone or public grant present) never reaches the ancestor check. -/
theorem ancestor_deleted_counterexample :
    hasDeletedAncestor stC4 "leaf" = true
    ∧ get_user_access stC4 "dave" "leaf" = ⟨true, true, none⟩
    ∧ (get_entity_with_permissions stC4 "dave" "leaf").1 =
        Except.error DriveError.NotPermitted := by decide

/-- C4 amended: for every principal that passes the permission gate, an
inactive ancestor makes the call raise the ancestor-deleted failure —
whatever grants or ownership the caller holds — and that failure is distinct
from the trashed failure raised for an inactive entity itself. -/
theorem ancestor_deleted_amended (st : State) (user ename : String) (ent : Entity)
    (hgate : ¬((get_general_access st ename).isEmpty = true
               ∧ st.hasPermission ename "read" user = false))
    (hent : lookupEntity st ename = some ent)
    (hanc : hasDeletedAncestor st ename = true) :
    (get_entity_with_permissions st user ename).1 = Except.error DriveError.ParentDeleted
    ∧ DriveError.ParentDeleted ≠ DriveError.Trashed := by
  refine ⟨?_, by decide⟩
  unfold get_entity_with_permissions
  rw [gate_cond_false hgate, hent]
  simp [hanc]

/-- Witness for C4 amended: on the root → mid (inactive) → leaf chain with
a passing gate, the call raises the ancestor-deleted failure even though
dave holds a full direct grant on leaf. -/
theorem ancestor_deleted_amended_witness :
    (get_entity_with_permissions stC4W "dave" "leaf").1 = Except.error DriveError.ParentDeleted
    ∧ DriveError.ParentDeleted ≠ DriveError.Trashed :=
  ancestor_deleted_amended stC4W "dave" "leaf"
    ⟨"leaf", "leaf", false, "bob", some "mid", true, 0, 0, "", none⟩
    (by decide) (by decide) (by decide)

/-! Claim C7. -/

/-- C7 counterexample: erin views the inactive non-folder f1 (the everyone
grant lets the gate pass); the call raises the trashed failure and still
performs the recently-viewed side effect, because `mark_as_viewed` runs
before the trashed check. -/
theorem mark_viewed_counterexample :
    get_entity_with_permissions stC7 "erin" "f1" = (Except.error DriveError.Trashed, true) := by
  decide

/-- C7 amended: the recently-viewed side effect fires exactly when the
caller passes the permission gate, the entity exists with no inactive
ancestor, the caller is not Guest and the entity is not a folder — whether
or not the entity itself is active, so it also fires on the trashed
failure path. -/
theorem mark_viewed_amended (st : State) (user ename : String) :
    (get_entity_with_permissions st user ename).2 = true ↔
      (((get_general_access st ename).isEmpty
          && !(st.hasPermission ename "read" user)) = false
       ∧ ∃ ent, lookupEntity st ename = some ent
           ∧ hasDeletedAncestor st ename = false
           ∧ user ≠ "Guest" ∧ ent.is_group = false) := by
  unfold get_entity_with_permissions
  cases hg : ((get_general_access st ename).isEmpty
      && !(st.hasPermission ename "read" user)) with
  | true => simp [hg]
  | false =>
    simp only [Bool.false_eq_true, if_false]
    cases hent : lookupEntity st ename with
    | none => simp
    | some ent =>
      cases hanc : hasDeletedAncestor st ename with
      | true => simp
      | false =>
        simp [apply_ite Prod.snd, Bool.and_eq_true, bne_iff_ne, Bool.not_eq_true',
          and_assoc]

/-! Claims C8 and C9: properties of the list queries. -/

lemma mem_highestLevelFilter {extra : SharedRow → Bool} {result : List SharedRow}
    {x : SharedRow} (hx : x ∈ highestLevelFilter extra result) :
    x ∈ result ∧ extra x = true ∧
      ∀ p, x.parent_drive_entity = some p → p ∉ result.map (fun y => y.name) := by
  unfold highestLevelFilter at hx
  rw [List.mem_filter] at hx
  obtain ⟨hmem0, hcond⟩ := hx
  rw [Bool.and_eq_true] at hcond
  refine ⟨hmem0, hcond.2, ?_⟩
  intro p hp hmem
  have h1 := hcond.1
  rw [hp] at h1
  simp [List.elem_iff, hmem] at h1

/-- C8 counterexample: pat owns the active entity g1 and shares it with
everyone; the all-rows mode of the shared-with-me query returns a row
owned by pat herself (no owner exclusion is applied in that mode). -/
theorem shared_with_me_owner_counterexample :
    (get_shared_with_me stC8 "pat" true (fun l => l)).any
      (fun x => x.owner == "pat") = true := by decide

/-- C8 amended: only the sorted mode of the shared-with-me listing
excludes rows owned by the caller; there its post-filter removes every
such row, whatever order the database returned. -/
theorem shared_with_me_owner_amended (st : State) (user : String)
    (order : List SharedRow → List SharedRow) :
    (get_shared_with_me st user false order).all (fun x => x.owner != user) = true := by
  rw [List.all_eq_true]
  intro x hx
  exact (mem_highestLevelFilter hx).2.1

lemma highestLevelFilter_no_parent (extra : SharedRow → Bool) (rows : List SharedRow) :
    (highestLevelFilter extra rows).all (fun x =>
      match x.parent_drive_entity with
      | some p => !((highestLevelFilter extra rows).map (fun y => y.name)).contains p
      | none => true) = true := by
  rw [List.all_eq_true]
  intro x hx
  cases hp : x.parent_drive_entity with
  | none => rfl
  | some p =>
    have h2 := (mem_highestLevelFilter hx).2.2 p hp
    have hout : p ∉ (highestLevelFilter extra rows).map (fun y => y.name) := by
      intro hmem
      rw [List.mem_map] at hmem
      obtain ⟨y, hy, hyp⟩ := hmem
      exact h2 (List.mem_map.mpr ⟨y, (mem_highestLevelFilter hy).1, hyp⟩)
    simp [List.elem_iff, hout]

/-- C9: in the externally consumed sorted mode, neither shared-by-me nor
shared-with-me returns a row whose parent identifier is the identifier of
any row of the same result set, whatever order the database returned. -/
theorem parent_filter_no_redundancy (st : State) (user : String)
    (order : List SharedRow → List SharedRow) :
    ((get_shared_by_me st user false order).all (fun x =>
        match x.parent_drive_entity with
        | some p => !((get_shared_by_me st user false order).map (fun y => y.name)).contains p
        | none => true) = true)
    ∧ ((get_shared_with_me st user false order).all (fun x =>
        match x.parent_drive_entity with
        | some p => !((get_shared_with_me st user false order).map (fun y => y.name)).contains p
        | none => true) = true) := by
  exact ⟨highestLevelFilter_no_parent (fun _ => true) (order (get_shared_by_me_all st user)),
    highestLevelFilter_no_parent (fun x => x.owner != user)
      (order (get_shared_with_me_all st user))⟩

/-! Claim C6: the group aggregation. -/

lemma mem_ugaRows {st : State} {user ename : String} {p : DocShare × GroupMember} :
    p ∈ ugaRows st user ename ↔
      p.1 ∈ st.docshares ∧ p.2 ∈ st.members ∧
      p.2.parent = p.1.user_name ∧ p.1.share_name = ename ∧ p.2.user = user := by
  unfold ugaRows
  rw [List.mem_filter]
  cases p with
  | mk ds m =>
    rw [List.pair_mem_product]
    simp [Bool.and_eq_true, and_assoc]

lemma mem_matchingGroupGrants {st : State} {user ename : String} {ds : DocShare} :
    ds ∈ matchingGroupGrants st user ename ↔
      ds ∈ st.docshares ∧ ds.user_doctype = "User Group" ∧ ds.share_name = ename ∧
      ∃ m ∈ st.members, m.user = user ∧ m.parent = ds.user_name := by
  unfold matchingGroupGrants
  rw [List.mem_filter]
  simp [List.any_eq_true, Bool.and_eq_true, and_assoc]

lemma dedupByKey_eq_self {key : α → String} {l : List α} :
    ∀ seen : List String, (l.map key).Nodup →
      (∀ x ∈ l, seen.contains (key x) = false) →
      dedupByKey key seen l = l := by
  induction l with
  | nil => intro seen _ _; rfl
  | cons a as ih =>
    intro seen hnd hs
    have hnd' : (key a :: as.map key).Nodup := by simpa using hnd
    unfold dedupByKey
    rw [hs a (List.mem_cons_self a as)]
    simp only [Bool.false_eq_true, if_false]
    congr 1
    apply ih
    · exact (List.nodup_cons.mp hnd').2
    · intro y hy
      have h1 : (key y == key a) = false := by
        have hne : key y ≠ key a := by
          intro he
          exact (List.nodup_cons.mp hnd').1 (he ▸ List.mem_map_of_mem key hy)
        simpa using hne
      rw [List.contains_cons, h1, Bool.false_or]
      exact hs y (List.mem_cons_of_mem a hy)

lemma ugaRows_nodup_keys {st : State} {user ename : String}
    (hds : st.docshares.Nodup)
    (hmem : (st.members.map (fun m => m.name)).Nodup)
    (huniq : ∀ d1 ∈ st.docshares, ∀ d2 ∈ st.docshares,
      d1.share_name = ename → d2.share_name = ename →
      d1.user_name = d2.user_name → d1 = d2) :
    ((ugaRows st user ename).map (fun p => p.2.name)).Nodup := by
  apply List.Nodup.map_on
  · intro p1 hp1 p2 hp2 hkey
    have h1 := mem_ugaRows.mp hp1
    have h2 := mem_ugaRows.mp hp2
    have hm : p1.2 = p2.2 :=
      List.inj_on_of_nodup_map hmem h1.2.1 h2.2.1 hkey
    have hun : p1.1.user_name = p2.1.user_name := by
      rw [← h1.2.2.1, ← h2.2.2.1, hm]
    have hd : p1.1 = p2.1 :=
      huniq p1.1 h1.1 p2.1 h2.1 h1.2.2.2.1 h2.2.2.2.1 hun
    cases p1; cases p2
    simp_all
  · exact List.Nodup.filter _ (List.Nodup.product hds (List.Nodup.of_map _ hmem))

lemma uga_any (st : State) (user ename : String) (f : DocShare → Bool)
    (hdoct : ∀ d ∈ st.docshares, d.share_name = ename →
      (∃ m ∈ st.members, m.user = user ∧ m.parent = d.user_name) →
      d.user_doctype = "User Group") :
    (ugaRows st user ename).any (fun p => f p.1) =
      (matchingGroupGrants st user ename).any f := by
  rw [Bool.eq_iff_iff, List.any_eq_true, List.any_eq_true]
  constructor
  · rintro ⟨p, hp, hf⟩
    have h := mem_ugaRows.mp hp
    have hdt := hdoct p.1 h.1 h.2.2.2.1 ⟨p.2, h.2.1, h.2.2.2.2, h.2.2.1⟩
    exact ⟨p.1, mem_matchingGroupGrants.mpr
      ⟨h.1, hdt, h.2.2.2.1, p.2, h.2.1, h.2.2.2.2, h.2.2.1⟩, hf⟩
  · rintro ⟨ds, hds, hf⟩
    have h := mem_matchingGroupGrants.mp hds
    obtain ⟨m, hm, hmu, hmp⟩ := h.2.2.2
    exact ⟨(ds, m), mem_ugaRows.mpr ⟨h.1, hm, hmp, h.2.2.1, hmu⟩, hf⟩

lemma uga_isEmpty (st : State) (user ename : String)
    (hdoct : ∀ d ∈ st.docshares, d.share_name = ename →
      (∃ m ∈ st.members, m.user = user ∧ m.parent = d.user_name) →
      d.user_doctype = "User Group") :
    (ugaRows st user ename).isEmpty = (matchingGroupGrants st user ename).isEmpty := by
  rw [Bool.eq_iff_iff, List.isEmpty_iff, List.isEmpty_iff,
    List.eq_nil_iff_forall_not_mem, List.eq_nil_iff_forall_not_mem]
  constructor
  · intro h ds hds
    have hh := mem_matchingGroupGrants.mp hds
    obtain ⟨m, hm, hmu, hmp⟩ := hh.2.2.2
    exact h (ds, m) (mem_ugaRows.mpr ⟨hh.1, hm, hmp, hh.2.2.1, hmu⟩)
  · intro h p hp
    have hh := mem_ugaRows.mp hp
    have hdt := hdoct p.1 hh.1 hh.2.2.2.1 ⟨p.2, hh.2.1, hh.2.2.2.2, hh.2.2.1⟩
    exact h p.1 (mem_matchingGroupGrants.mpr
      ⟨hh.1, hdt, hh.2.2.2.1, p.2, hh.2.1, hh.2.2.2.2, hh.2.2.1⟩)

/-- Canonical form of the group aggregation when the grant table holds no
duplicate rows, member rows have distinct ids, each group holds at most
one grant row on the entity, and every grant on the entity whose
`user_name` is one of the membership groups of the user really is a
group-principal grant (the code itself never checks the principal type
of the joined grant). -/
lemma uga_or_of_unique {st : State} {user ename : String}
    (hds : st.docshares.Nodup)
    (hmem : (st.members.map (fun m => m.name)).Nodup)
    (huniq : ∀ d1 ∈ st.docshares, ∀ d2 ∈ st.docshares,
      d1.share_name = ename → d2.share_name = ename →
      d1.user_name = d2.user_name → d1 = d2)
    (hdoct : ∀ d ∈ st.docshares, d.share_name = ename →
      (∃ m ∈ st.members, m.user = user ∧ m.parent = d.user_name) →
      d.user_doctype = "User Group") :
    user_group_entity_access st user ename =
      (if (matchingGroupGrants st user ename).isEmpty then none
       else some ⟨(matchingGroupGrants st user ename).any (fun ds => ds.read),
                  (matchingGroupGrants st user ename).any (fun ds => ds.write), none⟩) := by
  have hgrp : ugaGrouped st user ename = ugaRows st user ename :=
    dedupByKey_eq_self [] (ugaRows_nodup_keys hds hmem huniq) (fun x _ => rfl)
  unfold user_group_entity_access
  rw [hgrp, uga_isEmpty st user ename hdoct,
    uga_any st user ename (fun ds => ds.read) hdoct,
    uga_any st user ename (fun ds => ds.write) hdoct]

lemma perm_any {l1 l2 : List α} (h : l1.Perm l2) (f : α → Bool) :
    l1.any f = l2.any f := by
  rw [Bool.eq_iff_iff, List.any_eq_true, List.any_eq_true]
  constructor <;> rintro ⟨x, hx, hf⟩
  · exact ⟨x, h.mem_iff.mp hx, hf⟩
  · exact ⟨x, h.mem_iff.mpr hx, hf⟩

lemma perm_isEmpty {l1 l2 : List α} (h : l1.Perm l2) : l1.isEmpty = l2.isEmpty := by
  rw [Bool.eq_iff_iff, List.isEmpty_iff, List.isEmpty_iff,
    List.eq_nil_iff_forall_not_mem, List.eq_nil_iff_forall_not_mem]
  constructor <;> intro hh x hx
  · exact hh x (h.mem_iff.mpr hx)
  · exact hh x (h.mem_iff.mp hx)

/-- C6 counterexample: u belongs to group g and two grant rows for g on e
carry complementary flags.  The or over the matching grants is read-write,
but the aggregation returns only the flags of the single representative
row the GROUP BY keeps per membership, and swapping the two grant rows
changes the answer: neither the or equation nor permutation invariance
holds. -/
theorem group_access_or_counterexample :
    stC6p.docshares.Perm stC6.docshares
    ∧ stC6p.members = stC6.members
    ∧ (matchingGroupGrants stC6 "u" "e").any (fun ds => ds.read) = true
    ∧ (matchingGroupGrants stC6 "u" "e").any (fun ds => ds.write) = true
    ∧ user_group_entity_access stC6 "u" "e" = some ⟨false, true, none⟩
    ∧ user_group_entity_access stC6p "u" "e" = some ⟨true, false, none⟩ := by decide

/-- C6 amended: when the grant table holds no duplicate rows, member rows
have distinct ids, each group holds at most one grant row on the entity,
and every grant on the entity whose `user_name` collides with one of the
membership groups of the user is indeed a group-principal grant (the join
of the code checks only the name, never `user_doctype`), the aggregation
returns the or of read and the or of write over the matching group grants
(the spec set, with the principal-type condition), is invariant under
permutation of the grant rows, returns the distinct no-grant value `none`
when nothing matches, and never fails (it is a total function). -/
theorem group_access_or_amended (st : State) (user ename : String)
    (hds : st.docshares.Nodup)
    (hmem : (st.members.map (fun m => m.name)).Nodup)
    (huniq : ∀ d1 ∈ st.docshares, ∀ d2 ∈ st.docshares,
      d1.share_name = ename → d2.share_name = ename →
      d1.user_name = d2.user_name → d1 = d2)
    (hdoct : ∀ d ∈ st.docshares, d.share_name = ename →
      (∃ m ∈ st.members, m.user = user ∧ m.parent = d.user_name) →
      d.user_doctype = "User Group") :
    (user_group_entity_access st user ename =
      (if (matchingGroupGrants st user ename).isEmpty then none
       else some ⟨(matchingGroupGrants st user ename).any (fun ds => ds.read),
                  (matchingGroupGrants st user ename).any (fun ds => ds.write), none⟩))
    ∧ (∀ ds2 : List DocShare, ds2.Perm st.docshares →
        user_group_entity_access
          ⟨st.entities, ds2, st.members, st.favourites,
           st.ancestors, st.hasPermission, st.docContents⟩ user ename =
          user_group_entity_access st user ename) := by
  refine ⟨uga_or_of_unique hds hmem huniq hdoct, ?_⟩
  intro ds2 hperm
  have hds2 : ds2.Nodup := hperm.nodup_iff.mpr hds
  have huniq2 : ∀ d1 ∈ ds2, ∀ d2 ∈ ds2,
      d1.share_name = ename → d2.share_name = ename →
      d1.user_name = d2.user_name → d1 = d2 := by
    intro d1 h1 d2 h2
    exact huniq d1 (hperm.mem_iff.mp h1) d2 (hperm.mem_iff.mp h2)
  have hdoct2 : ∀ d ∈ ds2, d.share_name = ename →
      (∃ m ∈ st.members, m.user = user ∧ m.parent = d.user_name) →
      d.user_doctype = "User Group" := by
    intro d hd
    exact hdoct d (hperm.mem_iff.mp hd)
  have hmperm : (matchingGroupGrants
      ⟨st.entities, ds2, st.members, st.favourites,
       st.ancestors, st.hasPermission, st.docContents⟩ user ename).Perm
      (matchingGroupGrants st user ename) := by
    unfold matchingGroupGrants
    exact hperm.filter _
  rw [@uga_or_of_unique
        ⟨st.entities, ds2, st.members, st.favourites,
         st.ancestors, st.hasPermission, st.docContents⟩ user ename hds2 hmem huniq2 hdoct2,
    uga_or_of_unique hds hmem huniq hdoct,
    perm_isEmpty hmperm, perm_any hmperm (fun ds => ds.read),
    perm_any hmperm (fun ds => ds.write)]

/-- Witness for C6 amended: u belongs to groups g and h, the two groups
hold one grant row each (read-only and write-only); the aggregation
returns the read-write union, and swapping the grant rows leaves the
answer unchanged. -/
theorem group_access_or_amended_witness :
    user_group_entity_access stC6W "u" "e" = some ⟨true, true, none⟩
    ∧ user_group_entity_access
        ⟨stC6W.entities,
         [⟨"d2", "Drive Entity", "e", "User Group", "h", false, true, false, false, false⟩,
          ⟨"d1", "Drive Entity", "e", "User Group", "g", true, false, false, false, false⟩],
         stC6W.members, stC6W.favourites, stC6W.ancestors,
         stC6W.hasPermission, stC6W.docContents⟩ "u" "e" =
        user_group_entity_access stC6W "u" "e" := by
  have h := group_access_or_amended stC6W "u" "e" (by decide) (by decide) (by decide)
    (by decide)
  refine ⟨?_, h.2 _ (by decide)⟩
  rw [h.1]
  decide
